import Mathlib

/-!
# Verification of the FLASHViewer file-ingestion and parameter-persistence logic

Shallow embedding of `pages/FileUpload.py` and `src/common.py`:
* Python dicts (the parse caches, the on-disk directories, the parameter file)
  are association lists `List (String × τ)` in insertion order;
* Streamlit session state is the explicit record `IngestState`;
* the external parser `parseFLASHDeconvOutput` is an opaque function parameter;
* raised Python exceptions are explicit error values, and a loop body that can
  raise returns the state mutated so far together with the pending error
  (the exception propagates to the UI runtime, keeping prior mutations).
-/

set_option autoImplicit false

namespace FlashViewer

/-! ### Python string primitives -/

/-- Python `s.endswith(t)`. -/
def pyEndsWith (s t : String) : Bool :=
  t.data.isSuffixOf s.data

/-- Index of the last occurrence of `c` in `cs`: Python `str.rfind`,
with `none` standing for the `-1` result. -/
def lastIdxOf (c : Char) (cs : List Char) : Option Nat :=
  ((cs.enum.filter (fun p => p.2 = c)).map (fun p => p.1)).getLast?

/-- Python `f[0 : f.rfind('_')]` (from `getUploadedFileDF` and
`parseUploadedFiles`): the prefix of `f` up to, excluding, the last
underscore.  When `f` has no underscore, `rfind` returns `-1` and the slice
`f[0:-1]` drops the final character. -/
def expNameOf (f : String) : String :=
  match lastIdxOf '_' f.data with
  | some i => String.mk (f.data.take i)
  | none => String.mk (f.data.take (f.data.length - 1))

/-- Python `Path(f).name`: the component after the last slash. -/
def pathName (f : String) : String :=
  match lastIdxOf '/' f.data with
  | some i => String.mk (f.data.drop (i + 1))
  | none => f

/-- Python compares strings lexicographically by code point, which is exactly
the order on their character lists; this presentation of `String` order
reduces in the kernel (the built-in `String` comparison does not). -/
def strLe (a b : String) : Prop :=
  ¬ b.data < a.data

instance decStrLe : DecidableRel strLe :=
  fun _ _ => instDecidableNot

/-- Python `sorted` on a list of strings.  Both `sorted` and insertion sort are
stable, so they agree on every input. -/
def sortedStr (l : List String) : List String :=
  l.insertionSort strLe

/-! ### Python dicts as association lists (insertion order preserved) -/

/-- Python `k in d`. -/
def containsKey {τ : Type} (d : List (String × τ)) (k : String) : Bool :=
  d.any (fun kv => kv.1 == k)

/-- Python `d[k] = v`: update the entry in place when the key is present,
otherwise append the new entry. -/
def dictInsert {τ : Type} (d : List (String × τ)) (k : String) (v : τ) :
    List (String × τ) :=
  if containsKey d k then d.map (fun kv => if kv.1 == k then (k, v) else kv)
  else d ++ [(k, v)]

/-- Removal of every entry with key `k` (a dict holds at most one). -/
def dictErase {τ : Type} (d : List (String × τ)) (k : String) :
    List (String × τ) :=
  d.filter (fun kv => !(kv.1 == k))

/-- Python `d.keys()`. -/
def dictKeys {τ : Type} (d : List (String × τ)) : List String :=
  d.map (fun kv => kv.1)

/-- Python `d[k]` as an optional read. -/
def dictLookup {τ : Type} (d : List (String × τ)) (k : String) : Option τ :=
  (d.find? (fun kv => kv.1 == k)).map (fun kv => kv.2)

/-! ### The session / workspace state of `pages/FileUpload.py` -/

/-- Opaque byte content of an uploaded file (`file.getbuffer()`). -/
abbrev FileBytes := List Nat

/-- One row of the experiment summary table built by `getUploadedFileDF`:
columns `Experiment Name`, `Deconvolved Files`, `Annotated Files`. -/
structure ExpRow where
  expName : String
  deconvFile : String
  annoFile : String
deriving Repr, DecidableEq

/-- The state touched by `pages/FileUpload.py`.  `α` is the type of a parsed
deconvolved-side table (`spec_df`), `β` of an annotated-side table
(`anno_df`); the page never inspects them.  `experimentDf = none` models the
key `experiment-df` being absent from the session state. -/
structure IngestState (α β : Type) where
  deconvMzMLs : List String
  annoMzMLs : List String
  deconvDfs : List (String × α)
  annoDfs : List (String × β)
  experimentDf : Option (List ExpRow)
  diskDeconv : List (String × FileBytes)
  diskAnno : List (String × FileBytes)
deriving Repr, DecidableEq

/-! ### `handleInputFiles` -/

/-- The KeyError raised by `st.session_state['']` when an uploaded name ends
in `mzML` but matches neither bucket suffix. -/
inductive UploadErr
  | sessionKeyErr
deriving Repr, DecidableEq

/-- One iteration of the loop body of `handleInputFiles`: skip names not
ending in `mzML`; classify by suffix; for an unclassifiable `mzML` name the
computed `session_name` stays `''` and the lookup `st.session_state['']`
raises; a name already registered in its bucket is left alone; otherwise the
bytes are written to the bucket directory and the name appended to the
bucket's known-names list. -/
def handleOneFile {α β : Type} (st : IngestState α β) (name : String)
    (content : FileBytes) : Except UploadErr (IngestState α β) :=
  if ¬ pyEndsWith name "mzML" then .ok st
  else if pyEndsWith name "_deconv.mzML" then
    if name ∈ st.deconvMzMLs then .ok st
    else .ok { st with
      diskDeconv := dictInsert st.diskDeconv name content,
      deconvMzMLs := st.deconvMzMLs ++ [name] }
  else if pyEndsWith name "_annotated.mzML" then
    if name ∈ st.annoMzMLs then .ok st
    else .ok { st with
      diskAnno := dictInsert st.diskAnno name content,
      annoMzMLs := st.annoMzMLs ++ [name] }
  else .error .sessionKeyErr

/-- `handleInputFiles`: ingest the uploaded files in order; a raised error
aborts the loop while keeping the mutations made before it. -/
def handleInputFiles {α β : Type} (st : IngestState α β) :
    List (String × FileBytes) → IngestState α β × Option UploadErr
  | [] => (st, none)
  | (name, content) :: rest =>
    match handleOneFile st name content with
    | .error e => (st, some e)
    | .ok st' => handleInputFiles st' rest

/-! ### `parseUploadedFiles` -/

/-- The external collaborator `parseFLASHDeconvOutput(annoPath, deconvPath)`.
It returns `(spec_df, anno_df, tolerance, massoffset, chargemass)`; the three
scalars are unpacked but unused by `parseUploadedFiles`, so they are kept
opaque as one value of type `γ`.  `ε` is the type of parser failures. -/
abbrev ParserFn (α β γ ε : Type) := String → String → Except ε (α × β × γ)

/-- What one run of `parseUploadedFiles` reports. -/
inductive CycleReport (ε : Type)
  | noop
  | mismatch (notParsed : List String)
  | parsed
  | failed (e : ε)
deriving Repr, DecidableEq

/-- The pairing loop `for anno_f, deconv_f in zip(new_anno_files,
new_deconv_files)`: names not ending in `.mzML` are skipped; a parser failure
propagates, aborting the remainder while keeping the cache entries already
stored; on success `anno_dfs[anno_f]` and `deconv_dfs[deconv_f]` are set. -/
def parsePairsLoop {α β γ ε : Type} (parser : ParserFn α β γ ε)
    (st : IngestState α β) :
    List (String × String) → IngestState α β × Option ε
  | [] => (st, none)
  | (annoF, deconvF) :: rest =>
    if ¬ pyEndsWith annoF ".mzML" then parsePairsLoop parser st rest
    else
      match parser annoF deconvF with
      | .error e => (st, some e)
      | .ok (specDf, annoDf, _extra) =>
        parsePairsLoop parser
          { st with
            annoDfs := dictInsert st.annoDfs annoF annoDf,
            deconvDfs := dictInsert st.deconvDfs deconvF specDf } rest

/-- `new_deconv_files`: known deconvolved names not yet keys of the
deconvolved parse cache. -/
def newDeconvFiles {α β : Type} (st : IngestState α β) : List String :=
  st.deconvMzMLs.filter (fun f => !containsKey st.deconvDfs f)

/-- `new_anno_files`: known annotated names not yet keys of the annotated
parse cache. -/
def newAnnoFiles {α β : Type} (st : IngestState α β) : List String :=
  st.annoMzMLs.filter (fun f => !containsKey st.annoDfs f)

/-- `parseUploadedFiles`: the ingestion cycle.  No new files: no-op.  Unequal
counts of new files: report the pairing mismatch listing every new name and
change nothing.  Otherwise sort both new sets independently and run the
pairing loop over the positional pairs. -/
def parseUploadedFiles {α β γ ε : Type} (parser : ParserFn α β γ ε)
    (st : IngestState α β) : IngestState α β × CycleReport ε :=
  let newDeconv := newDeconvFiles st
  let newAnno := newAnnoFiles st
  if newDeconv.length = 0 ∧ newAnno.length = 0 then (st, .noop)
  else if newDeconv.length ≠ newAnno.length then
    (st, .mismatch (newDeconv ++ newAnno))
  else
    match parsePairsLoop parser st ((sortedStr newAnno).zip (sortedStr newDeconv)) with
    | (st', none) => (st', .parsed)
    | (st', some e) => (st', .failed e)

/-! ### `getUploadedFileDF` and `showUploadedFilesTable` -/

/-- `getUploadedFileDF`: strip directories from both name lists, derive the
experiment names from the annotated names, and build the three-column
summary table row-wise (pandas requires the columns to have equal length at
every call site). -/
def getUploadedFileDF (deconvFiles annoFiles : List String) : List ExpRow :=
  let deconvNames := deconvFiles.map pathName
  let annoNames := annoFiles.map pathName
  let experimentNames := annoNames.map expNameOf
  List.zipWith (fun en (da : String × String) => ExpRow.mk en da.1 da.2)
    experimentNames (deconvNames.zip annoNames)

/-- The message issued by `showUploadedFilesTable`. -/
inductive TableMsg
  | infoNoFiles
  | errNoDeconv
  | errNoAnno
  | errCountMismatch
  | shownTable
deriving Repr, DecidableEq

/-- `showUploadedFilesTable`: examine the sorted key lists of the two parse
caches; on the informational or error branches nothing is written; on the
success branch `experiment-df` is rebuilt in full from the caches and the
function returns `true`. -/
def showUploadedFilesTable {α β : Type} (st : IngestState α β) :
    IngestState α β × TableMsg × Bool :=
  let deconvFiles := sortedStr (dictKeys st.deconvDfs)
  let annoFiles := sortedStr (dictKeys st.annoDfs)
  if deconvFiles.length = 0 ∧ annoFiles.length = 0 then (st, .infoNoFiles, false)
  else if deconvFiles.length = 0 then (st, .errNoDeconv, false)
  else if annoFiles.length = 0 then (st, .errNoAnno, false)
  else if deconvFiles.length ≠ annoFiles.length then (st, .errCountMismatch, false)
  else
    ({ st with experimentDf := some (getUploadedFileDF deconvFiles annoFiles) },
     .shownTable, true)

/-! ### `remove_selected_mzML_files` and the remove-all branch -/

/-- The exceptions `Path.unlink` and `del dict[key]` can raise. -/
inductive RemoveErr
  | fileNotFound
  | keyErr
deriving Repr, DecidableEq

/-- `Path(mzml_dir, file_name).unlink()`: raises when the file is absent. -/
def unlinkFile (dir : List (String × FileBytes)) (name : String) :
    Except RemoveErr (List (String × FileBytes)) :=
  if containsKey dir name then .ok (dictErase dir name)
  else .error .fileNotFound

/-- `del d[k]`: raises when the key is absent. -/
def delKey {τ : Type} (d : List (String × τ)) (k : String) :
    Except RemoveErr (List (String × τ)) :=
  if containsKey d k then .ok (dictErase d k) else .error .keyErr

/-- The per-bucket inner loop of `remove_selected_mzML_files`: for each
selected experiment name, unlink `exp_name + pfx` from the bucket directory
and delete the same key from the bucket's parse cache; an exception keeps
the mutations made before it. -/
def removeLoop {τ : Type} (dir : List (String × FileBytes))
    (cache : List (String × τ)) (pfx : String) :
    List String → List (String × FileBytes) × List (String × τ) × Option RemoveErr
  | [] => (dir, cache, none)
  | expName :: rest =>
    let fileName := expName ++ pfx
    match unlinkFile dir fileName with
    | .error e => (dir, cache, some e)
    | .ok dir' =>
      match delKey cache fileName with
      | .error e => (dir', cache, some e)
      | .ok cache' => removeLoop dir' cache' pfx rest

/-- `remove_selected_mzML_files`: run the per-bucket loop first over the
deconvolved bucket (`_deconv.mzML`), then over the annotated bucket
(`_annotated.mzML`), then drop from `experiment-df` every row whose
experiment name is selected (row removal in place, not a rebuild). -/
def remove_selected_mzML_files {α β : Type} (st : IngestState α β)
    (toRemove : List String) : IngestState α β × Option RemoveErr :=
  match removeLoop st.diskDeconv st.deconvDfs "_deconv.mzML" toRemove with
  | (dd, dc, some e) => ({ st with diskDeconv := dd, deconvDfs := dc }, some e)
  | (dd, dc, none) =>
    match removeLoop st.diskAnno st.annoDfs "_annotated.mzML" toRemove with
    | (ad, ac, some e) =>
      ({ st with diskDeconv := dd, deconvDfs := dc,
                 diskAnno := ad, annoDfs := ac }, some e)
    | (ad, ac, none) =>
      match st.experimentDf with
      | none =>
        ({ st with diskDeconv := dd, deconvDfs := dc,
                   diskAnno := ad, annoDfs := ac }, some .keyErr)
      | some df =>
        ({ st with diskDeconv := dd, deconvDfs := dc,
                   diskAnno := ad, annoDfs := ac,
                   experimentDf :=
                     some (df.filter (fun r => !(toRemove.contains r.expName))) },
         none)

/-- The `Remove all` branch of the page: `reset_directory` (from
`src/common.py`) deletes and recreates each bucket directory, so both exist
and are empty; the known-names lists and both parse caches are emptied and
the `experiment-df` key is deleted. -/
def removeAllFiles {α β : Type} (st : IngestState α β) : IngestState α β :=
  { st with
    diskDeconv := [], deconvMzMLs := [],
    diskAnno := [], annoMzMLs := [],
    deconvDfs := [], annoDfs := [],
    experimentDf := none }

/-! ### `save_params` from `src/common.py` -/

/-- Python dict update `params[key] = value` for a key already present. -/
def updateExisting {υ : Type} (ps : List (String × υ)) (k : String) (v : υ) :
    List (String × υ) :=
  ps.map (fun kv => if kv.1 == k then (k, v) else kv)

/-- `save_params`: for every session-state item whose key is already a key of
`params`, the session value overwrites the params value; the merged mapping
is then written as a full overwrite of `params.json`.  The returned list is
the mapping persisted to disk. -/
def save_params {υ : Type} (sessionState : List (String × υ))
    (params : List (String × υ)) : List (String × υ) :=
  sessionState.foldl
    (fun ps kv => if containsKey ps kv.1 then updateExisting ps kv.1 kv.2 else ps)
    params

/-! ### Concrete fixtures used to exercise the operations -/

/-- A concrete external parser that always succeeds with fixed opaque
tables. -/
def exampleParser : ParserFn Nat Nat Nat Nat :=
  fun _ _ => Except.ok (7, 8, 9)

/-- A concrete external parser that rejects the pair of experiment `exp2`
and succeeds on everything else. -/
def exampleFailParser : ParserFn Nat Nat Nat Nat :=
  fun annoF _ =>
    if annoF == "exp2_annotated.mzML" then Except.error 42
    else Except.ok (7, 8, 9)

/-- The session state right after uploading exactly `exp1_deconv.mzML` and
`exp1_annotated.mzML` into a fresh workspace. -/
def exp1State : IngestState Nat Nat where
  deconvMzMLs := ["exp1_deconv.mzML"]
  annoMzMLs := ["exp1_annotated.mzML"]
  deconvDfs := []
  annoDfs := []
  experimentDf := none
  diskDeconv := [("exp1_deconv.mzML", [0])]
  diskAnno := [("exp1_annotated.mzML", [1])]

/-- A fresh workspace holding the pairs of experiments `exp1` and `exp2`,
none parsed yet. -/
def twoPairState : IngestState Nat Nat where
  deconvMzMLs := ["exp1_deconv.mzML", "exp2_deconv.mzML"]
  annoMzMLs := ["exp1_annotated.mzML", "exp2_annotated.mzML"]
  deconvDfs := []
  annoDfs := []
  experimentDf := none
  diskDeconv := [("exp1_deconv.mzML", [0]), ("exp2_deconv.mzML", [0])]
  diskAnno := [("exp1_annotated.mzML", [1]), ("exp2_annotated.mzML", [1])]

/-- Two deconvolved uploads but only one annotated upload, none parsed. -/
def mismatchState : IngestState Nat Nat where
  deconvMzMLs := ["exp1_deconv.mzML", "exp2_deconv.mzML"]
  annoMzMLs := ["exp1_annotated.mzML"]
  deconvDfs := []
  annoDfs := []
  experimentDf := none
  diskDeconv := [("exp1_deconv.mzML", [0]), ("exp2_deconv.mzML", [0])]
  diskAnno := [("exp1_annotated.mzML", [1])]

/-- The state after a fully successful cycle and display step for the single
experiment `exp1`. -/
def cachedState : IngestState Nat Nat where
  deconvMzMLs := ["exp1_deconv.mzML"]
  annoMzMLs := ["exp1_annotated.mzML"]
  deconvDfs := [("exp1_deconv.mzML", 7)]
  annoDfs := [("exp1_annotated.mzML", 8)]
  experimentDf := some [ExpRow.mk "exp1" "exp1_deconv.mzML" "exp1_annotated.mzML"]
  diskDeconv := [("exp1_deconv.mzML", [0])]
  diskAnno := [("exp1_annotated.mzML", [1])]

/-- A state whose experiment `exp1` has its deconvolved file on disk and in
cache, but whose annotated file is missing from the annotated bucket
directory. -/
def annoMissingState : IngestState Nat Nat where
  deconvMzMLs := ["exp1_deconv.mzML"]
  annoMzMLs := ["exp1_annotated.mzML"]
  deconvDfs := [("exp1_deconv.mzML", 7)]
  annoDfs := [("exp1_annotated.mzML", 8)]
  experimentDf := some [ExpRow.mk "exp1" "exp1_deconv.mzML" "exp1_annotated.mzML"]
  diskDeconv := [("exp1_deconv.mzML", [0])]
  diskAnno := []

/-- A reachable post-display state in which lexical positional pairing
mis-paired the uploads: deconvolved files exist for experiments `A`,`B` but
annotated files for `B`,`C`, so the display step paired `A_deconv` with
`B_annotated` and `B_deconv` with `C_annotated`. -/
def misPairedState : IngestState Nat Nat where
  deconvMzMLs := ["A_deconv.mzML", "B_deconv.mzML"]
  annoMzMLs := ["B_annotated.mzML", "C_annotated.mzML"]
  deconvDfs := [("A_deconv.mzML", 1), ("B_deconv.mzML", 2)]
  annoDfs := [("B_annotated.mzML", 3), ("C_annotated.mzML", 4)]
  experimentDf := some (getUploadedFileDF ["A_deconv.mzML", "B_deconv.mzML"]
    ["B_annotated.mzML", "C_annotated.mzML"])
  diskDeconv := [("A_deconv.mzML", [0]), ("B_deconv.mzML", [0])]
  diskAnno := [("B_annotated.mzML", [0]), ("C_annotated.mzML", [0])]

/-! ## Basic lemmas about the embedded primitives -/

/-- `strLe` coincides with the standard order on `String`, so `sortedStr`
sorts exactly as Python's `sorted` does. -/
theorem strLe_iff_le (a b : String) : strLe a b ↔ a ≤ b := by
  rw [String.le_iff_toList_le, String.toList, String.toList]
  exact not_lt

/-- Transitivity of the Python suffix test. -/
theorem pyEndsWith_of_pyEndsWith {s t u : String} (h1 : pyEndsWith s t = true)
    (h2 : pyEndsWith t u = true) : pyEndsWith s u = true := by
  simp only [pyEndsWith, List.isSuffixOf_iff_suffix] at *
  exact h2.trans h1

/-- A name cannot end in both bucket suffixes. -/
theorem not_deconv_of_annotated {s : String}
    (h : pyEndsWith s "_annotated.mzML" = true) :
    pyEndsWith s "_deconv.mzML" = false := by
  by_contra hc
  have hd : pyEndsWith s "_deconv.mzML" = true := by
    cases hh : pyEndsWith s "_deconv.mzML" with
    | false => exact absurd hh hc
    | true => rfl
  simp only [pyEndsWith, List.isSuffixOf_iff_suffix] at h hd
  rcases List.suffix_or_suffix_of_suffix hd h with hs | hs
  · exact absurd hs (by decide)
  · exact absurd hs (by decide)

theorem containsKey_append {τ : Type} (d₁ d₂ : List (String × τ)) (k : String) :
    containsKey (d₁ ++ d₂) k = (containsKey d₁ k || containsKey d₂ k) := by
  simp [containsKey, List.any_append]

theorem containsKey_of_mem {τ : Type} {d : List (String × τ)} {kv : String × τ}
    (h : kv ∈ d) : containsKey d kv.1 = true := by
  simp only [containsKey, List.any_eq_true]
  exact ⟨kv, h, by simp⟩

theorem dictInsert_fresh {τ : Type} (d : List (String × τ)) (k : String) (v : τ)
    (h : containsKey d k = false) : dictInsert d k v = d ++ [(k, v)] := by
  simp [dictInsert, h]

/-- Pointwise-equal predicates give the same `List.any`. -/
theorem listAny_congr {σ : Type} {p q : σ → Bool} :
    ∀ {l : List σ}, (∀ a ∈ l, p a = q a) → l.any p = l.any q
  | [], _ => rfl
  | a :: l, h => by
    simp only [List.any_cons, h a (by simp)]
    rw [listAny_congr (fun x hx => h x (by simp [hx]))]

theorem containsKey_dictErase_of_ne {τ : Type} (d : List (String × τ))
    (k k' : String) (h : k' ≠ k) :
    containsKey (dictErase d k) k' = containsKey d k' := by
  simp only [containsKey, dictErase, List.any_filter]
  refine listAny_congr ?_
  intro kv _
  by_cases hk' : kv.1 = k'
  · have : (kv.1 == k) = false := by
      rw [hk']
      exact beq_eq_false_iff_ne.mpr h
    simp [this]
  · simp [hk']

theorem containsKey_dictErase_false {τ : Type} (d : List (String × τ))
    (k k' : String) (h : containsKey d k' = false) :
    containsKey (dictErase d k) k' = false := by
  simp only [containsKey, List.any_eq_false] at h ⊢
  intro kv hkv
  exact h kv (List.mem_of_mem_filter hkv)

theorem sortedStr_length (l : List String) : (sortedStr l).length = l.length :=
  (List.perm_insertionSort strLe l).length_eq

theorem sortedStr_nil : sortedStr [] = [] := rfl

/-- Unfolding `getUploadedFileDF` one row at a time. -/
theorem getUploadedFileDF_cons (d a : String) (D A : List String) :
    getUploadedFileDF (d :: D) (a :: A) =
      ExpRow.mk (expNameOf (pathName a)) (pathName d) (pathName a) ::
        getUploadedFileDF D A := rfl

/-- Column-wise description of the summary table for equal-length inputs. -/
theorem getUploadedFileDF_maps :
    ∀ (D A : List String), D.length = A.length →
      (getUploadedFileDF D A).map ExpRow.annoFile = A.map pathName
      ∧ (getUploadedFileDF D A).map ExpRow.deconvFile = D.map pathName
      ∧ (getUploadedFileDF D A).length = A.length
  | [], [], _ => by simp [getUploadedFileDF]
  | [], _ :: _, h => by simp at h
  | _ :: _, [], h => by simp at h
  | d :: D, a :: A, h => by
    have ih := getUploadedFileDF_maps D A (by simpa using h)
    simp [getUploadedFileDF_cons, ih.1, ih.2.1, ih.2.2]

/-! ## Lemmas about `save_params` -/

theorem containsKey_eq_false_of_not_mem_keys {τ : Type} {d : List (String × τ)}
    {k : String} (h : k ∉ dictKeys d) : containsKey d k = false := by
  simp only [containsKey, List.any_eq_false]
  intro kv hkv hbeq
  have hk : kv.1 = k := by simpa using hbeq
  exact h (hk ▸ List.mem_map_of_mem (fun kv => kv.1) hkv)

theorem updateExisting_keys {υ : Type} (p : List (String × υ)) (k : String) (v : υ) :
    dictKeys (updateExisting p k v) = dictKeys p := by
  simp only [dictKeys, updateExisting, List.map_map]
  refine List.map_congr_left ?_
  intro kv _
  by_cases h : kv.1 = k
  · subst h
    simp [Function.comp]
  · simp [Function.comp, h]

theorem dictLookup_eq_none {τ : Type} {d : List (String × τ)} {k : String}
    (h : containsKey d k = false) : dictLookup d k = none := by
  simp only [containsKey, List.any_eq_false] at h
  simp only [dictLookup, Option.map_eq_none']
  rw [List.find?_eq_none]
  exact h

theorem dictLookup_cons {τ : Type} (kv : String × τ) (d : List (String × τ))
    (k : String) :
    dictLookup (kv :: d) k = if kv.1 == k then some kv.2 else dictLookup d k := by
  cases h : (kv.1 == k) <;> simp [dictLookup, List.find?_cons, h]

/-- The mapping `save_params` persists, in closed form: every `params` entry
whose key also occurs in the session state takes the session value, every
other entry is kept as-is, and no entry is added or dropped. -/
theorem save_params_eq_map {υ : Type} :
    ∀ (s p : List (String × υ)), (dictKeys s).Nodup →
      save_params s p = p.map (fun kv =>
        match dictLookup s kv.1 with
        | some w => (kv.1, w)
        | none => kv)
  | [], p, _ => by
    simp [save_params, dictLookup]
  | kv₀ :: rest, p, hnd => by
    have hnd₀ : kv₀.1 ∉ dictKeys rest ∧ (dictKeys rest).Nodup :=
      List.nodup_cons.mp hnd
    have step : save_params (kv₀ :: rest) p = save_params rest
        (if containsKey p kv₀.1 then updateExisting p kv₀.1 kv₀.2 else p) := rfl
    rw [step]
    by_cases hc : containsKey p kv₀.1
    · rw [if_pos hc, save_params_eq_map rest _ hnd₀.2]
      simp only [updateExisting, List.map_map]
      refine List.map_congr_left ?_
      intro kv _
      by_cases h : kv.1 = kv₀.1
      · have hrest : dictLookup rest kv₀.1 = none :=
          dictLookup_eq_none (containsKey_eq_false_of_not_mem_keys hnd₀.1)
        simp [Function.comp, h, dictLookup_cons, hrest]
      · simp [Function.comp, h, dictLookup_cons, Ne.symm h]
    · rw [if_neg hc, save_params_eq_map rest _ hnd₀.2]
      refine List.map_congr_left ?_
      intro kv hkv
      have h : kv.1 ≠ kv₀.1 := by
        intro hh
        rw [← hh] at hc
        exact absurd (containsKey_of_mem hkv) (by simp [hc])
      simp [dictLookup_cons, Ne.symm h]

theorem dictLookup_map_merge {υ : Type} (s : List (String × υ)) (k : String) (v : υ)
    (hs : dictLookup s k = some v) :
    ∀ (p : List (String × υ)), containsKey p k = true →
      dictLookup (p.map (fun kv =>
        match dictLookup s kv.1 with
        | some w => (kv.1, w)
        | none => kv)) k = some v
  | [], hp => by simp [containsKey] at hp
  | kv :: rest, hp => by
    rw [List.map_cons, dictLookup_cons]
    by_cases h : kv.1 = k
    · rw [h, hs]
      simp
    · have hfst : (match dictLookup s kv.1 with
          | some w => (kv.1, w)
          | none => kv).1 = kv.1 := by
        cases dictLookup s kv.1 <;> rfl
      rw [if_neg (by simp [hfst, h])]
      refine dictLookup_map_merge s k v hs rest ?_
      have := hp
      simp only [containsKey, List.any_cons] at this
      simpa [containsKey, h] using this

theorem save_params_keys {υ : Type} :
    ∀ (s p : List (String × υ)), dictKeys (save_params s p) = dictKeys p
  | [], _ => rfl
  | kv :: rest, p => by
    have step : save_params (kv :: rest) p = save_params rest
        (if containsKey p kv.1 then updateExisting p kv.1 kv.2 else p) := rfl
    rw [step, save_params_keys rest _]
    by_cases hc : containsKey p kv.1
    · simp [hc, updateExisting_keys]
    · simp [hc]

/-- C8: When parameters are saved, for every key of the params mapping that
also exists among the session-level overrides, the override value replaces
the params value in the mapping written (as a full overwrite) to the
workspace parameter file. -/
theorem save_params_session_override {υ : Type}
    (sessionState params : List (String × υ))
    (hnodup : (dictKeys sessionState).Nodup) (k : String) (v : υ)
    (hs : dictLookup sessionState k = some v)
    (hp : containsKey params k = true) :
    dictLookup (save_params sessionState params) k = some v := by
  rw [save_params_eq_map sessionState params hnodup]
  exact dictLookup_map_merge sessionState k v hs params hp

/-- C8 witness: a session override `png` for key `image-format` over a stale
on-disk `svg` results in the persisted mapping holding `png`. -/
theorem save_params_session_override_witness :
    dictLookup (save_params [("image-format", "png")] [("image-format", "svg")])
      "image-format" = some "png" :=
  save_params_session_override [("image-format", "png")] [("image-format", "svg")]
    (by decide) "image-format" "png" (by decide) (by decide)

/-- C10: The key set written to the parameter file equals exactly the key set
of the input params mapping, and session-state entries whose keys are not in
params never influence the persisted file: two saves with identical params
and identical session values on params' keys produce identical files. -/
theorem save_params_exact_keys_frame {υ : Type}
    (params s s₁ s₂ : List (String × υ)) :
    dictKeys (save_params s params) = dictKeys params
    ∧ ((dictKeys s₁).Nodup → (dictKeys s₂).Nodup →
        (∀ k, containsKey params k = true → dictLookup s₁ k = dictLookup s₂ k) →
        save_params s₁ params = save_params s₂ params) := by
  refine ⟨save_params_keys s params, ?_⟩
  intro h1 h2 hagree
  rw [save_params_eq_map s₁ params h1, save_params_eq_map s₂ params h2]
  refine List.map_congr_left ?_
  intro kv hkv
  rw [hagree kv.1 (containsKey_of_mem hkv)]

/-- C10 witness: two saves with the same params and the same session value on
the params key `a`, but different unrelated session entries (`zz` vs `q`),
persist identical mappings with exactly the params keys. -/
theorem save_params_exact_keys_frame_witness :
    dictKeys (save_params [("a", 1), ("zz", 5)] [("a", (0 : Nat)), ("b", 2)]) =
      dictKeys [("a", (0 : Nat)), ("b", 2)]
    ∧ save_params [("a", 1), ("zz", 5)] [("a", (0 : Nat)), ("b", 2)] =
        save_params [("a", 1), ("q", 9)] [("a", (0 : Nat)), ("b", 2)] := by
  have h := save_params_exact_keys_frame [("a", (0 : Nat)), ("b", 2)]
    [("a", 1), ("zz", 5)] [("a", 1), ("zz", 5)] [("a", 1), ("q", 9)]
  refine ⟨h.1, h.2 (by decide) (by decide) ?_⟩
  intro k hk
  have hk' : k = "a" ∨ k = "b" := by
    simp only [containsKey, List.any_cons, List.any_nil, Bool.or_false,
      Bool.or_eq_true, beq_iff_eq] at hk
    tauto
  rcases hk' with rfl | rfl <;> decide

/-! ## The pairing cycle -/

theorem containsKey_map_sel_pairs {τ' : Type} (L : List (String × String))
    (sel : String × String → String) (F : String × String → τ') (a : String)
    (h : ∀ p ∈ L, sel p ≠ a) :
    containsKey (L.map (fun p => (sel p, F p))) a = false := by
  simp only [containsKey, List.any_eq_false]
  intro kv hkv
  obtain ⟨p, hp, rfl⟩ := List.mem_map.mp hkv
  simpa using h p hp

/-- Running the pairing loop over a first block of pairs that all parse
successfully extends the two caches by exactly those pairs' entries and
continues with the remaining pairs. -/
theorem parsePairsLoop_append_success {α β γ ε : Type} (parser : ParserFn α β γ ε)
    (f : String → String → α × β × γ) :
    ∀ (L1 : List (String × String)) (st : IngestState α β),
      (∀ p ∈ L1, pyEndsWith p.1 ".mzML" = true) →
      (∀ p ∈ L1, parser p.1 p.2 = Except.ok (f p.1 p.2)) →
      (L1.map Prod.fst).Nodup →
      (∀ p ∈ L1, containsKey st.annoDfs p.1 = false) →
      (L1.map Prod.snd).Nodup →
      (∀ p ∈ L1, containsKey st.deconvDfs p.2 = false) →
      ∀ L2 : List (String × String),
        parsePairsLoop parser st (L1 ++ L2) =
          parsePairsLoop parser
            { st with
              annoDfs := st.annoDfs ++ L1.map (fun p => (p.1, (f p.1 p.2).2.1)),
              deconvDfs := st.deconvDfs ++ L1.map (fun p => (p.2, (f p.1 p.2).1)) } L2
  | [], st, _, _, _, _, _, _, L2 => by simp
  | (a1, d1) :: L1, st, hmz, hok, ha, hfa, hd, hfd, L2 => by
    have hmem : (a1, d1) ∈ (a1, d1) :: L1 := by simp
    have h1 : pyEndsWith a1 ".mzML" = true := hmz _ hmem
    have hk : parser a1 d1 = Except.ok (f a1 d1) := hok _ hmem
    have hfa1 : containsKey st.annoDfs a1 = false := hfa _ hmem
    have hfd1 : containsKey st.deconvDfs d1 = false := hfd _ hmem
    have ha' : a1 ∉ L1.map Prod.fst ∧ (L1.map Prod.fst).Nodup :=
      List.nodup_cons.mp (by simpa using ha)
    have hd' : d1 ∉ L1.map Prod.snd ∧ (L1.map Prod.snd).Nodup :=
      List.nodup_cons.mp (by simpa using hd)
    rcases hf : f a1 d1 with ⟨x, y, z⟩
    have hfa' : ∀ p ∈ L1, containsKey
        ({ st with
           annoDfs := st.annoDfs ++ [(a1, y)],
           deconvDfs := st.deconvDfs ++ [(d1, x)] } : IngestState α β).annoDfs
        p.1 = false := by
      intro p hp
      have hne : a1 ≠ p.1 := fun hh => ha'.1 (hh ▸ List.mem_map_of_mem Prod.fst hp)
      show containsKey (st.annoDfs ++ [(a1, y)]) p.1 = false
      rw [containsKey_append, hfa p (by simp [hp])]
      simp [containsKey, beq_eq_false_iff_ne.mpr hne]
    have hfd' : ∀ p ∈ L1, containsKey
        ({ st with
           annoDfs := st.annoDfs ++ [(a1, y)],
           deconvDfs := st.deconvDfs ++ [(d1, x)] } : IngestState α β).deconvDfs
        p.2 = false := by
      intro p hp
      have hne : d1 ≠ p.2 := fun hh => hd'.1 (hh ▸ List.mem_map_of_mem Prod.snd hp)
      show containsKey (st.deconvDfs ++ [(d1, x)]) p.2 = false
      rw [containsKey_append, hfd p (by simp [hp])]
      simp [containsKey, beq_eq_false_iff_ne.mpr hne]
    have hrec := parsePairsLoop_append_success parser f L1
      { st with
        annoDfs := st.annoDfs ++ [(a1, y)],
        deconvDfs := st.deconvDfs ++ [(d1, x)] }
      (fun p hp => hmz p (by simp [hp])) (fun p hp => hok p (by simp [hp]))
      ha'.2 hfa' hd'.2 hfd' L2
    rw [List.cons_append]
    simp only [parsePairsLoop]
    rw [if_neg (by simp [h1]), hk, hf]
    simp only []
    rw [dictInsert_fresh _ _ _ hfa1, dictInsert_fresh _ _ _ hfd1]
    rw [hrec]
    simp [hf, List.append_assoc]

/-- C1: A cycle whose newly uploaded deconvolved and annotated sets have
unequal sizes reports the pairing mismatch naming every filename of both new
sets, parses nothing and leaves the whole state unchanged; a cycle with both
new sets empty is a no-op. -/
theorem parseUploadedFiles_pairing_mismatch {α β γ ε : Type}
    (parser : ParserFn α β γ ε) (st : IngestState α β) :
    ((newDeconvFiles st).length ≠ (newAnnoFiles st).length →
      parseUploadedFiles parser st =
        (st, CycleReport.mismatch (newDeconvFiles st ++ newAnnoFiles st)))
    ∧ (newDeconvFiles st = [] → newAnnoFiles st = [] →
      parseUploadedFiles parser st = (st, CycleReport.noop)) := by
  constructor
  · intro hne
    have hc1 : ¬ ((newDeconvFiles st).length = 0 ∧ (newAnnoFiles st).length = 0) := by
      rintro ⟨h1, h2⟩
      exact hne (by rw [h1, h2])
    simp only [parseUploadedFiles]
    rw [if_neg hc1, if_pos hne]
  · intro h1 h2
    simp only [parseUploadedFiles]
    rw [if_pos ⟨by simp [h1], by simp [h2]⟩]

/-- C1 witness: uploading two deconvolved files against one annotated file
reports the mismatch naming all three and mutates nothing, and a cycle on an
already fully parsed state is a no-op. -/
theorem parseUploadedFiles_pairing_mismatch_witness :
    parseUploadedFiles exampleParser mismatchState =
      (mismatchState, CycleReport.mismatch
        ["exp1_deconv.mzML", "exp2_deconv.mzML", "exp1_annotated.mzML"])
    ∧ parseUploadedFiles exampleParser cachedState =
        (cachedState, CycleReport.noop) := by
  constructor
  · have h := (parseUploadedFiles_pairing_mismatch exampleParser mismatchState).1
      (by decide)
    rw [h]
    decide
  · have h := (parseUploadedFiles_pairing_mismatch exampleParser cachedState).2
      (by decide) (by decide)
    rw [h]

/-- C2: In a cycle whose new deconvolved and annotated sets have equal
positive size, the two sets are sorted independently and paired positionally
(the pair list is the zip of the two sorted lists), each pair's entries are
stored under the annotated and deconvolved filename respectively, and in
particular uploading exactly `exp1_deconv.mzML` and `exp1_annotated.mzML`
yields a summary row with experiment identity `exp1` (the annotated name's
prefix up to its last underscore) carrying both filenames. -/
theorem parseUploadedFiles_sorted_positional_pairing {α β γ ε : Type}
    (parser : ParserFn α β γ ε) (f : String → String → α × β × γ)
    (st : IngestState α β) (L : List (String × String))
    (hL : L = (sortedStr (newAnnoFiles st)).zip (sortedStr (newDeconvFiles st)))
    (hlen : (newDeconvFiles st).length = (newAnnoFiles st).length)
    (hne : newAnnoFiles st ≠ [])
    (hmz : ∀ p ∈ L, pyEndsWith p.1 ".mzML" = true)
    (hok : ∀ p ∈ L, parser p.1 p.2 = Except.ok (f p.1 p.2))
    (ha : (L.map Prod.fst).Nodup)
    (hfa : ∀ p ∈ L, containsKey st.annoDfs p.1 = false)
    (hd : (L.map Prod.snd).Nodup)
    (hfd : ∀ p ∈ L, containsKey st.deconvDfs p.2 = false) :
    parseUploadedFiles parser st =
      ({ st with
         annoDfs := st.annoDfs ++ L.map (fun p => (p.1, (f p.1 p.2).2.1)),
         deconvDfs := st.deconvDfs ++ L.map (fun p => (p.2, (f p.1 p.2).1)) },
       CycleReport.parsed)
    ∧ (showUploadedFilesTable (parseUploadedFiles exampleParser exp1State).1).1.experimentDf =
        some [ExpRow.mk "exp1" "exp1_deconv.mzML" "exp1_annotated.mzML"] := by
  constructor
  · have hc1 : ¬ ((newDeconvFiles st).length = 0 ∧ (newAnnoFiles st).length = 0) := by
      rintro ⟨-, h2⟩
      exact hne (List.length_eq_zero.mp h2)
    have hloop := parsePairsLoop_append_success parser f L st hmz hok ha hfa hd hfd []
    simp only [List.append_nil, parsePairsLoop] at hloop
    simp only [parseUploadedFiles]
    rw [if_neg hc1, if_neg (not_not_intro hlen), ← hL, hloop]
  · decide

/-- C2 witness: the general pairing theorem applied to the concrete
single-pair upload of experiment `exp1`. -/
theorem parseUploadedFiles_sorted_positional_pairing_witness :
    parseUploadedFiles exampleParser exp1State =
      ({ exp1State with
         annoDfs := [("exp1_annotated.mzML", 8)],
         deconvDfs := [("exp1_deconv.mzML", 7)] }, CycleReport.parsed)
    ∧ (showUploadedFilesTable (parseUploadedFiles exampleParser exp1State).1).1.experimentDf =
        some [ExpRow.mk "exp1" "exp1_deconv.mzML" "exp1_annotated.mzML"] := by
  have h := parseUploadedFiles_sorted_positional_pairing exampleParser
    (fun _ _ => (7, 8, 9)) exp1State
    [("exp1_annotated.mzML", "exp1_deconv.mzML")]
    (by decide) (by decide) (by decide)
    (by intro p hp; fin_cases hp; rfl)
    (by intro p hp; fin_cases hp; rfl)
    (by decide) (by decide) (by decide) (by decide)
  refine ⟨?_, h.2⟩
  rw [h.1]
  decide

/-- C3: If within a pairing cycle the external parser fails on one
positional pair after succeeding on the earlier ones, the cycle propagates
exactly that failure, the earlier pairs' cache entries are in place, the
failing pair is cached on neither side, and the remaining pairs are left
unprocessed. -/
theorem parseUploadedFiles_parse_failure {α β γ ε : Type}
    (parser : ParserFn α β γ ε) (f : String → String → α × β × γ)
    (st : IngestState α β) (L1 L2 : List (String × String))
    (a d : String) (e : ε)
    (hL : (sortedStr (newAnnoFiles st)).zip (sortedStr (newDeconvFiles st)) =
      L1 ++ (a, d) :: L2)
    (hlen : (newDeconvFiles st).length = (newAnnoFiles st).length)
    (hne : newAnnoFiles st ≠ [])
    (hmz : ∀ p ∈ L1, pyEndsWith p.1 ".mzML" = true)
    (haend : pyEndsWith a ".mzML" = true)
    (hok : ∀ p ∈ L1, parser p.1 p.2 = Except.ok (f p.1 p.2))
    (hfail : parser a d = Except.error e)
    (ha : (L1.map Prod.fst).Nodup)
    (hfa : ∀ p ∈ L1, containsKey st.annoDfs p.1 = false)
    (hd : (L1.map Prod.snd).Nodup)
    (hfd : ∀ p ∈ L1, containsKey st.deconvDfs p.2 = false)
    (hfa_a : containsKey st.annoDfs a = false)
    (hfd_d : containsKey st.deconvDfs d = false)
    (hna : ∀ p ∈ L1, p.1 ≠ a)
    (hnd2 : ∀ p ∈ L1, p.2 ≠ d) :
    parseUploadedFiles parser st =
      ({ st with
         annoDfs := st.annoDfs ++ L1.map (fun p => (p.1, (f p.1 p.2).2.1)),
         deconvDfs := st.deconvDfs ++ L1.map (fun p => (p.2, (f p.1 p.2).1)) },
       CycleReport.failed e)
    ∧ containsKey
        (st.annoDfs ++ L1.map (fun p => (p.1, (f p.1 p.2).2.1))) a = false
    ∧ containsKey
        (st.deconvDfs ++ L1.map (fun p => (p.2, (f p.1 p.2).1))) d = false := by
  have hconta : containsKey
      (st.annoDfs ++ L1.map (fun p => (p.1, (f p.1 p.2).2.1))) a = false := by
    rw [containsKey_append, hfa_a,
      containsKey_map_sel_pairs L1 Prod.fst (fun p => (f p.1 p.2).2.1) a hna]
    rfl
  have hcontd : containsKey
      (st.deconvDfs ++ L1.map (fun p => (p.2, (f p.1 p.2).1))) d = false := by
    rw [containsKey_append, hfd_d,
      containsKey_map_sel_pairs L1 Prod.snd (fun p => (f p.1 p.2).1) d hnd2]
    rfl
  refine ⟨?_, hconta, hcontd⟩
  have hc1 : ¬ ((newDeconvFiles st).length = 0 ∧ (newAnnoFiles st).length = 0) := by
    rintro ⟨-, h2⟩
    exact hne (List.length_eq_zero.mp h2)
  have hstep := parsePairsLoop_append_success parser f L1 st hmz hok ha hfa hd hfd
    ((a, d) :: L2)
  have honce : parsePairsLoop parser
      { st with
        annoDfs := st.annoDfs ++ L1.map (fun p => (p.1, (f p.1 p.2).2.1)),
        deconvDfs := st.deconvDfs ++ L1.map (fun p => (p.2, (f p.1 p.2).1)) }
      ((a, d) :: L2) =
      ({ st with
         annoDfs := st.annoDfs ++ L1.map (fun p => (p.1, (f p.1 p.2).2.1)),
         deconvDfs := st.deconvDfs ++ L1.map (fun p => (p.2, (f p.1 p.2).1)) },
       some e) := by
    simp only [parsePairsLoop]
    rw [if_neg (by simp [haend]), hfail]
  simp only [parseUploadedFiles]
  rw [if_neg hc1, if_neg (not_not_intro hlen), hL, hstep, honce]

/-- C3 witness: with two fresh pairs and a parser rejecting the second
sorted pair, the cycle fails with that error, keeps `exp1`'s two new cache
entries, and caches neither side of the `exp2` pair. -/
theorem parseUploadedFiles_parse_failure_witness :
    parseUploadedFiles exampleFailParser twoPairState =
      ({ twoPairState with
         annoDfs := [("exp1_annotated.mzML", 8)],
         deconvDfs := [("exp1_deconv.mzML", 7)] }, CycleReport.failed 42)
    ∧ containsKey [("exp1_annotated.mzML", 8)] "exp2_annotated.mzML" = false
    ∧ containsKey [("exp1_deconv.mzML", 7)] "exp2_deconv.mzML" = false := by
  have h := parseUploadedFiles_parse_failure exampleFailParser
    (fun _ _ => (7, 8, 9)) twoPairState
    [("exp1_annotated.mzML", "exp1_deconv.mzML")] []
    "exp2_annotated.mzML" "exp2_deconv.mzML" 42
    (by decide) (by decide) (by decide)
    (by intro p hp; fin_cases hp; rfl)
    (by decide)
    (by intro p hp; fin_cases hp; rfl)
    (by rfl)
    (by decide) (by decide) (by decide) (by decide) (by decide) (by decide)
    (by intro p hp; fin_cases hp; decide)
    (by intro p hp; fin_cases hp; decide)
  refine ⟨?_, by decide, by decide⟩
  rw [h.1]
  decide

/-! ## The display step and the summary table -/

/-- C4 counterexample: in a reachable mis-paired post-display state, removing
experiment `B` succeeds and updates the summary table by dropping rows (an
incremental patch), leaving a table that differs from a full rebuild from the
two parse caches and that still names the deconvolved file `B_deconv.mzML`
although it is no longer a key of any cache. -/
theorem summary_table_patched_not_rebuilt_counterexample :
    (remove_selected_mzML_files misPairedState ["B"]).2 = none
    ∧ (remove_selected_mzML_files misPairedState ["B"]).1.experimentDf =
        some [ExpRow.mk "C" "B_deconv.mzML" "C_annotated.mzML"]
    ∧ (remove_selected_mzML_files misPairedState ["B"]).1.experimentDf ≠
        some (getUploadedFileDF
          (sortedStr (dictKeys (remove_selected_mzML_files misPairedState ["B"]).1.deconvDfs))
          (sortedStr (dictKeys (remove_selected_mzML_files misPairedState ["B"]).1.annoDfs)))
    ∧ containsKey (remove_selected_mzML_files misPairedState ["B"]).1.deconvDfs
        "B_deconv.mzML" = false := by
  decide

/-- C4 amended: whenever the display step takes its success branch, the
summary table is rebuilt in full from the two parse caches — it has exactly
one row per annotated-cache key, its annotated column is exactly the sorted
annotated keys, and its deconvolved column exactly the sorted deconvolved
keys; the removal operation, by contrast, updates the table by dropping the
selected rows in place rather than rebuilding it. -/
theorem showUploadedFilesTable_rebuilds_in_full {α β : Type}
    (st st' : IngestState α β) (msg : TableMsg)
    (h : showUploadedFilesTable st = (st', msg, true)) :
    st'.experimentDf = some (getUploadedFileDF
      (sortedStr (dictKeys st.deconvDfs)) (sortedStr (dictKeys st.annoDfs)))
    ∧ (∀ rows, st'.experimentDf = some rows →
        rows.length = (dictKeys st.annoDfs).length
        ∧ rows.map ExpRow.annoFile = (sortedStr (dictKeys st.annoDfs)).map pathName
        ∧ rows.map ExpRow.deconvFile = (sortedStr (dictKeys st.deconvDfs)).map pathName)
    ∧ (∀ toRemove df, st'.experimentDf = some df →
        (remove_selected_mzML_files st' toRemove).2 = none →
        (remove_selected_mzML_files st' toRemove).1.experimentDf =
          some (df.filter (fun r => !(toRemove.contains r.expName)))) := by
  have hsplit := h
  simp only [showUploadedFilesTable] at hsplit
  split_ifs at hsplit with hc1 hc2 hc3 hc4
  · exact absurd (congrArg (fun t => t.2.2) hsplit) (by simp)
  · exact absurd (congrArg (fun t => t.2.2) hsplit) (by simp)
  · exact absurd (congrArg (fun t => t.2.2) hsplit) (by simp)
  · exact absurd (congrArg (fun t => t.2.2) hsplit) (by simp)
  · have hlen : (sortedStr (dictKeys st.deconvDfs)).length =
        (sortedStr (dictKeys st.annoDfs)).length := not_not.mp hc4
    have hst : st' = { st with experimentDf := some (getUploadedFileDF
        (sortedStr (dictKeys st.deconvDfs)) (sortedStr (dictKeys st.annoDfs))) } :=
      (congrArg (fun t => t.1) hsplit).symm
    have hmaps := getUploadedFileDF_maps
      (sortedStr (dictKeys st.deconvDfs)) (sortedStr (dictKeys st.annoDfs)) hlen
    refine ⟨by rw [hst], ?_, ?_⟩
    · intro rows hrows
      rw [hst] at hrows
      simp only [Option.some.injEq] at hrows
      subst hrows
      exact ⟨hmaps.2.2.trans (sortedStr_length _), hmaps.1, hmaps.2.1⟩
    · intro toRemove df hdf herr
      rcases h1 : removeLoop st'.diskDeconv st'.deconvDfs "_deconv.mzML" toRemove
        with ⟨dd, dc, e1⟩
      cases e1 with
      | some e =>
        rw [remove_selected_mzML_files, h1] at herr ⊢
        simp at herr
      | none =>
        rcases h2 : removeLoop st'.diskAnno st'.annoDfs "_annotated.mzML" toRemove
          with ⟨ad, ac, e2⟩
        cases e2 with
        | some e =>
          rw [remove_selected_mzML_files, h1, h2] at herr ⊢
          simp at herr
        | none =>
          rw [remove_selected_mzML_files, h1, h2, hdf] at herr ⊢

/-- C4 witness: on the fully parsed single-experiment state the display step
takes the success branch, its table is the full rebuild from the caches, and
a subsequent removal updates that table by dropping the selected row. -/
theorem showUploadedFilesTable_rebuilds_in_full_witness :
    cachedState.experimentDf = some (getUploadedFileDF
      (sortedStr (dictKeys cachedState.deconvDfs))
      (sortedStr (dictKeys cachedState.annoDfs)))
    ∧ (remove_selected_mzML_files cachedState ["exp1"]).1.experimentDf =
        some ([ExpRow.mk "exp1" "exp1_deconv.mzML" "exp1_annotated.mzML"].filter
          (fun r => !((["exp1"] : List String).contains r.expName))) := by
  have h := showUploadedFilesTable_rebuilds_in_full cachedState cachedState
    TableMsg.shownTable (by decide)
  exact ⟨h.1, h.2.2 ["exp1"]
    [ExpRow.mk "exp1" "exp1_deconv.mzML" "exp1_annotated.mzML"] (by decide) (by decide)⟩

/-! ## `handleInputFiles`: idempotence and registration -/

theorem handleOneFile_nodup {α β : Type} {st st' : IngestState α β}
    {name : String} {content : FileBytes}
    (h : handleOneFile st name content = Except.ok st')
    (h1 : st.deconvMzMLs.Nodup) (h2 : st.annoMzMLs.Nodup) :
    st'.deconvMzMLs.Nodup ∧ st'.annoMzMLs.Nodup := by
  unfold handleOneFile at h
  split_ifs at h
  all_goals
    simp only [Except.ok.injEq] at h
  all_goals subst h
  all_goals
    exact ⟨by simp_all [List.nodup_append], by simp_all [List.nodup_append]⟩

theorem handleInputFiles_nodup {α β : Type} :
    ∀ (files : List (String × FileBytes)) (st : IngestState α β),
      st.deconvMzMLs.Nodup → st.annoMzMLs.Nodup →
      (handleInputFiles st files).1.deconvMzMLs.Nodup
      ∧ (handleInputFiles st files).1.annoMzMLs.Nodup
  | [], _, h1, h2 => ⟨h1, h2⟩
  | (name, content) :: rest, st, h1, h2 => by
    simp only [handleInputFiles]
    cases hh : handleOneFile st name content with
    | error e => exact ⟨h1, h2⟩
    | ok st' =>
      have hnd := handleOneFile_nodup hh h1 h2
      exact handleInputFiles_nodup rest st' hnd.1 hnd.2

/-- C5: ingesting a file whose name is already registered in its bucket is a
no-op — the state, including the on-disk buckets, is returned unchanged —
and for any sequence of uploads the known-names lists never acquire
duplicates. -/
theorem handleInputFiles_idempotent_no_duplicates {α β : Type}
    (st : IngestState α β) (name : String) (content : FileBytes)
    (files : List (String × FileBytes)) :
    (pyEndsWith name "_deconv.mzML" = true → name ∈ st.deconvMzMLs →
      handleOneFile st name content = Except.ok st)
    ∧ (pyEndsWith name "_annotated.mzML" = true → name ∈ st.annoMzMLs →
      handleOneFile st name content = Except.ok st)
    ∧ (st.deconvMzMLs.Nodup → st.annoMzMLs.Nodup →
      (handleInputFiles st files).1.deconvMzMLs.Nodup
      ∧ (handleInputFiles st files).1.annoMzMLs.Nodup) := by
  refine ⟨?_, ?_, fun h1 h2 => handleInputFiles_nodup files st h1 h2⟩
  · intro hdc hmem
    have hmz : pyEndsWith name "mzML" = true :=
      pyEndsWith_of_pyEndsWith hdc (by decide)
    simp [handleOneFile, hmz, hdc, hmem]
  · intro hac hmem
    have hmz : pyEndsWith name "mzML" = true :=
      pyEndsWith_of_pyEndsWith hac (by decide)
    have hdc : pyEndsWith name "_deconv.mzML" = false := not_deconv_of_annotated hac
    simp [handleOneFile, hmz, hac, hdc, hmem]

/-- C5 witness: re-uploading either of `exp1`'s files into the state that
already knows them changes nothing, and a mixed upload sequence keeps the
known-names lists duplicate-free. -/
theorem handleInputFiles_idempotent_no_duplicates_witness :
    handleOneFile cachedState "exp1_deconv.mzML" [9] = Except.ok cachedState
    ∧ handleOneFile cachedState "exp1_annotated.mzML" [9] = Except.ok cachedState
    ∧ (handleInputFiles cachedState
        [("exp1_deconv.mzML", [9]), ("exp3_deconv.mzML", [9])]).1.deconvMzMLs.Nodup := by
  have h := handleInputFiles_idempotent_no_duplicates cachedState "exp1_deconv.mzML"
    [9] [("exp1_deconv.mzML", [9]), ("exp3_deconv.mzML", [9])]
  have h2 := handleInputFiles_idempotent_no_duplicates cachedState
    "exp1_annotated.mzML" [9] []
  exact ⟨h.1 (by decide) (by decide), h2.2.1 (by decide) (by decide),
    (h.2.2 (by decide) (by decide)).1⟩

/-- C9: an uploaded name that ends in `mzML` but carries neither bucket
suffix is not silently skipped: `session_name` stays `''` and the lookup
`st.session_state['']` raises a KeyError aborting ingestion, whereas a name
not ending in `mzML` at all is skipped silently as the spec describes. -/
theorem handleOneFile_unclassifiable_mzML_raises {α β : Type}
    (st : IngestState α β) (content : FileBytes) :
    handleOneFile st "sample.mzML" content = Except.error UploadErr.sessionKeyErr
    ∧ handleOneFile st "notes.txt" content = Except.ok st := by
  constructor
  · have h1 : pyEndsWith "sample.mzML" "mzML" = true := by decide
    have h2 : pyEndsWith "sample.mzML" "_deconv.mzML" = false := by decide
    have h3 : pyEndsWith "sample.mzML" "_annotated.mzML" = false := by decide
    simp [handleOneFile, h1, h2, h3]
  · have h1 : pyEndsWith "notes.txt" "mzML" = false := by decide
    simp [handleOneFile, h1]

/-! ## Removal of selected experiments -/

theorem strAppend_right_cancel {x e pfx : String} (h : x ++ pfx = e ++ pfx) :
    x = e := by
  have hd := congrArg String.data h
  simp only [String.data_append] at hd
  have hx := List.append_cancel_right hd
  exact congrArg String.mk hx

theorem dictErase_filter_comm {τ : Type} (d : List (String × τ)) (k : String)
    (ks : List String) :
    (dictErase d k).filter (fun kv => !(ks.contains kv.1)) =
      d.filter (fun kv => !((k :: ks).contains kv.1)) := by
  simp only [dictErase, List.filter_filter]
  refine List.filter_congr ?_
  intro kv _
  by_cases h : kv.1 = k
  · simp [h, List.contains_cons]
  · have hb : (kv.1 == k) = false := beq_eq_false_iff_ne.mpr h
    rw [List.contains_cons, hb]
    simp

/-- The per-bucket removal loop, when every target is present in both the
directory and the cache, removes exactly the targeted entries from each. -/
theorem removeLoop_success {τ : Type} (pfx : String) :
    ∀ (toRemove : List String) (dir : List (String × FileBytes))
      (cache : List (String × τ)),
      (∀ x ∈ toRemove, containsKey dir (x ++ pfx) = true) →
      (∀ x ∈ toRemove, containsKey cache (x ++ pfx) = true) →
      toRemove.Nodup →
      removeLoop dir cache pfx toRemove =
        (dir.filter (fun kv => !((toRemove.map (fun x => x ++ pfx)).contains kv.1)),
         cache.filter (fun kv => !((toRemove.map (fun x => x ++ pfx)).contains kv.1)),
         none)
  | [], dir, cache, _, _, _ => by simp [removeLoop]
  | e0 :: rest, dir, cache, hdir, hcache, hnd => by
    have hd0 : containsKey dir (e0 ++ pfx) = true := hdir e0 (by simp)
    have hc0 : containsKey cache (e0 ++ pfx) = true := hcache e0 (by simp)
    have hnd' := List.nodup_cons.mp hnd
    have hu : unlinkFile dir (e0 ++ pfx) = Except.ok (dictErase dir (e0 ++ pfx)) := by
      simp [unlinkFile, hd0]
    have hk : delKey cache (e0 ++ pfx) = Except.ok (dictErase cache (e0 ++ pfx)) := by
      simp [delKey, hc0]
    have hdir' : ∀ x ∈ rest, containsKey (dictErase dir (e0 ++ pfx)) (x ++ pfx) = true := by
      intro x hx
      have hne : x ++ pfx ≠ e0 ++ pfx :=
        fun hh => hnd'.1 (strAppend_right_cancel hh ▸ hx)
      rw [containsKey_dictErase_of_ne _ _ _ hne]
      exact hdir x (by simp [hx])
    have hcache' : ∀ x ∈ rest, containsKey (dictErase cache (e0 ++ pfx)) (x ++ pfx) = true := by
      intro x hx
      have hne : x ++ pfx ≠ e0 ++ pfx :=
        fun hh => hnd'.1 (strAppend_right_cancel hh ▸ hx)
      rw [containsKey_dictErase_of_ne _ _ _ hne]
      exact hcache x (by simp [hx])
    simp only [removeLoop, hu, hk]
    rw [removeLoop_success pfx rest _ _ hdir' hcache' hnd'.2]
    rw [dictErase_filter_comm, dictErase_filter_comm, List.map_cons]

/-- The per-bucket removal loop, when every target before `x` is present in
both the directory and the cache but `x`'s file is absent from the
directory, raises exactly the not-found error. -/
theorem removeLoop_notFound {τ : Type} (pfx : String) :
    ∀ (T1 : List String) (dir : List (String × FileBytes))
      (cache : List (String × τ)) (x : String) (T2 : List String),
      (∀ y ∈ T1, containsKey dir (y ++ pfx) = true) →
      (∀ y ∈ T1, containsKey cache (y ++ pfx) = true) →
      T1.Nodup →
      containsKey dir (x ++ pfx) = false →
      (removeLoop dir cache pfx (T1 ++ x :: T2)).2.2 = some RemoveErr.fileNotFound
  | [], dir, cache, x, T2, _, _, _, habs => by
    have hu : unlinkFile dir (x ++ pfx) = Except.error RemoveErr.fileNotFound := by
      simp [unlinkFile, habs]
    simp [removeLoop, hu]
  | e0 :: T1, dir, cache, x, T2, hdir, hcache, hnd, habs => by
    have hd0 : containsKey dir (e0 ++ pfx) = true := hdir e0 (by simp)
    have hc0 : containsKey cache (e0 ++ pfx) = true := hcache e0 (by simp)
    have hnd' := List.nodup_cons.mp hnd
    have hu : unlinkFile dir (e0 ++ pfx) = Except.ok (dictErase dir (e0 ++ pfx)) := by
      simp [unlinkFile, hd0]
    have hk : delKey cache (e0 ++ pfx) = Except.ok (dictErase cache (e0 ++ pfx)) := by
      simp [delKey, hc0]
    have hdir' : ∀ y ∈ T1, containsKey (dictErase dir (e0 ++ pfx)) (y ++ pfx) = true := by
      intro y hy
      have hne : y ++ pfx ≠ e0 ++ pfx :=
        fun hh => hnd'.1 (strAppend_right_cancel hh ▸ hy)
      rw [containsKey_dictErase_of_ne _ _ _ hne]
      exact hdir y (by simp [hy])
    have hcache' : ∀ y ∈ T1, containsKey (dictErase cache (e0 ++ pfx)) (y ++ pfx) = true := by
      intro y hy
      have hne : y ++ pfx ≠ e0 ++ pfx :=
        fun hh => hnd'.1 (strAppend_right_cancel hh ▸ hy)
      rw [containsKey_dictErase_of_ne _ _ _ hne]
      exact hcache y (by simp [hy])
    have habs' : containsKey (dictErase dir (e0 ++ pfx)) (x ++ pfx) = false :=
      containsKey_dictErase_false _ _ _ habs
    rw [List.cons_append]
    simp only [removeLoop, hu, hk]
    exact removeLoop_notFound pfx T1 _ _ x T2 hdir' hcache' hnd'.2 habs'

/-- C6: removing experiment identities that are fully present deletes
exactly their deconvolved and annotated files and their two cache entries,
leaving every other file, cache entry and state field untouched; a selected
identity whose deconvolved file is absent, or whose annotated file is absent
with the deconvolved side present, makes the operation fail with the
not-found error rather than silently skipping; and removing a single
non-existent identity fails and mutates nothing. -/
theorem remove_selected_exact {α β : Type} (st : IngestState α β)
    (toRemove T1 T2 : List String) (df : List ExpRow) (x : String) :
    (st.experimentDf = some df → toRemove.Nodup →
      (∀ y ∈ toRemove, containsKey st.diskDeconv (y ++ "_deconv.mzML") = true) →
      (∀ y ∈ toRemove, containsKey st.deconvDfs (y ++ "_deconv.mzML") = true) →
      (∀ y ∈ toRemove, containsKey st.diskAnno (y ++ "_annotated.mzML") = true) →
      (∀ y ∈ toRemove, containsKey st.annoDfs (y ++ "_annotated.mzML") = true) →
      remove_selected_mzML_files st toRemove =
        ({ st with
           diskDeconv := st.diskDeconv.filter
             (fun kv => !((toRemove.map (fun y => y ++ "_deconv.mzML")).contains kv.1)),
           deconvDfs := st.deconvDfs.filter
             (fun kv => !((toRemove.map (fun y => y ++ "_deconv.mzML")).contains kv.1)),
           diskAnno := st.diskAnno.filter
             (fun kv => !((toRemove.map (fun y => y ++ "_annotated.mzML")).contains kv.1)),
           annoDfs := st.annoDfs.filter
             (fun kv => !((toRemove.map (fun y => y ++ "_annotated.mzML")).contains kv.1)),
           experimentDf :=
             some (df.filter (fun r => !(toRemove.contains r.expName))) }, none))
    ∧ (toRemove = T1 ++ x :: T2 → toRemove.Nodup →
        (∀ y ∈ T1, containsKey st.diskDeconv (y ++ "_deconv.mzML") = true) →
        (∀ y ∈ T1, containsKey st.deconvDfs (y ++ "_deconv.mzML") = true) →
        containsKey st.diskDeconv (x ++ "_deconv.mzML") = false →
        (remove_selected_mzML_files st toRemove).2 = some RemoveErr.fileNotFound)
    ∧ (toRemove = T1 ++ x :: T2 → toRemove.Nodup →
        (∀ y ∈ toRemove, containsKey st.diskDeconv (y ++ "_deconv.mzML") = true) →
        (∀ y ∈ toRemove, containsKey st.deconvDfs (y ++ "_deconv.mzML") = true) →
        (∀ y ∈ T1, containsKey st.diskAnno (y ++ "_annotated.mzML") = true) →
        (∀ y ∈ T1, containsKey st.annoDfs (y ++ "_annotated.mzML") = true) →
        containsKey st.diskAnno (x ++ "_annotated.mzML") = false →
        (remove_selected_mzML_files st toRemove).2 = some RemoveErr.fileNotFound)
    ∧ (containsKey st.diskDeconv (x ++ "_deconv.mzML") = false →
        remove_selected_mzML_files st [x] = (st, some RemoveErr.fileNotFound)) := by
  refine ⟨?_, ?_, ?_, ?_⟩
  · intro hdf hnd hdd hdc hda hac
    have h1 := removeLoop_success "_deconv.mzML" toRemove st.diskDeconv st.deconvDfs
      hdd hdc hnd
    have h2 := removeLoop_success "_annotated.mzML" toRemove st.diskAnno st.annoDfs
      hda hac hnd
    rw [remove_selected_mzML_files, h1, h2, hdf]
  · intro heq hnd hd1 hc1 habs
    subst heq
    have hT1nd : T1.Nodup := (List.nodup_append.mp hnd).1
    have hloop := removeLoop_notFound "_deconv.mzML" T1 st.diskDeconv st.deconvDfs
      x T2 hd1 hc1 hT1nd habs
    rcases hres : removeLoop st.diskDeconv st.deconvDfs "_deconv.mzML" (T1 ++ x :: T2)
      with ⟨dd, dc, e1⟩
    rw [hres] at hloop
    have he1 : e1 = some RemoveErr.fileNotFound := hloop
    subst he1
    rw [remove_selected_mzML_files, hres]
  · intro heq hnd hdd hdc ha1 hac1 habs
    subst heq
    have hT1nd : T1.Nodup := (List.nodup_append.mp hnd).1
    have h1 := removeLoop_success "_deconv.mzML" (T1 ++ x :: T2) st.diskDeconv
      st.deconvDfs hdd hdc hnd
    have hloop := removeLoop_notFound "_annotated.mzML" T1 st.diskAnno st.annoDfs
      x T2 ha1 hac1 hT1nd habs
    rcases hres2 : removeLoop st.diskAnno st.annoDfs "_annotated.mzML" (T1 ++ x :: T2)
      with ⟨ad, ac, e2⟩
    rw [hres2] at hloop
    have he2 : e2 = some RemoveErr.fileNotFound := hloop
    subst he2
    rw [remove_selected_mzML_files, h1, hres2]
  · intro habs
    have h1 : removeLoop st.diskDeconv st.deconvDfs "_deconv.mzML" [x] =
        (st.diskDeconv, st.deconvDfs, some RemoveErr.fileNotFound) := by
      have hu : unlinkFile st.diskDeconv (x ++ "_deconv.mzML") =
          Except.error RemoveErr.fileNotFound := by
        simp [unlinkFile, habs]
      simp [removeLoop, hu]
    rw [remove_selected_mzML_files, h1]

/-- C6 witness: removing the fully present identity `exp1` deletes exactly
its two files and two cache entries and drops its summary row; removing the
identity `missing`, whose deconvolved file is absent, fails with the
not-found error and mutates nothing; and removing `exp1` when only its
annotated file is missing also fails with the not-found error. -/
theorem remove_selected_exact_witness :
    remove_selected_mzML_files cachedState ["exp1"] =
      ({ cachedState with
         diskDeconv := [], deconvDfs := [], diskAnno := [], annoDfs := [],
         experimentDf := some [] }, none)
    ∧ (remove_selected_mzML_files cachedState ["missing"]).2 =
        some RemoveErr.fileNotFound
    ∧ (remove_selected_mzML_files annoMissingState ["exp1"]).2 =
        some RemoveErr.fileNotFound
    ∧ remove_selected_mzML_files cachedState ["missing"] =
        (cachedState, some RemoveErr.fileNotFound) := by
  have h := remove_selected_exact cachedState ["exp1"] [] []
    [ExpRow.mk "exp1" "exp1_deconv.mzML" "exp1_annotated.mzML"] "missing"
  have h2 := remove_selected_exact cachedState ["missing"] [] [] [] "missing"
  have h3 := remove_selected_exact annoMissingState ["exp1"] [] []
    [ExpRow.mk "exp1" "exp1_deconv.mzML" "exp1_annotated.mzML"] "exp1"
  refine ⟨?_, ?_, ?_, ?_⟩
  · have ha := h.1 (by decide) (by decide) (by decide) (by decide) (by decide) (by decide)
    rw [ha]
    decide
  · exact h2.2.1 (by decide) (by decide) (by decide) (by decide) (by decide)
  · exact h3.2.2.1 (by decide) (by decide) (by decide) (by decide) (by decide)
      (by decide) (by decide)
  · exact h2.2.2.2 (by decide)

/-! ## The remove-all reset -/

/-- C7: after the Remove-all branch both bucket directories exist empty,
both known-names lists and both parse caches are empty and the summary-table
key is deleted; a pairing cycle on this state is a no-op and the display
step reports the informational nothing-uploaded message, not an error. -/
theorem removeAllFiles_resets {α β γ ε : Type} (parser : ParserFn α β γ ε)
    (st : IngestState α β) :
    (removeAllFiles st).diskDeconv = [] ∧ (removeAllFiles st).diskAnno = []
    ∧ (removeAllFiles st).deconvMzMLs = [] ∧ (removeAllFiles st).annoMzMLs = []
    ∧ (removeAllFiles st).deconvDfs = [] ∧ (removeAllFiles st).annoDfs = []
    ∧ (removeAllFiles st).experimentDf = none
    ∧ parseUploadedFiles parser (removeAllFiles st) =
        (removeAllFiles st, CycleReport.noop)
    ∧ showUploadedFilesTable (removeAllFiles st) =
        (removeAllFiles st, TableMsg.infoNoFiles, false) := by
  refine ⟨rfl, rfl, rfl, rfl, rfl, rfl, rfl, ?_, ?_⟩
  · simp [parseUploadedFiles, removeAllFiles, newDeconvFiles, newAnnoFiles]
  · simp [showUploadedFilesTable, removeAllFiles, dictKeys, sortedStr]

end FlashViewer
